import Mathlib

/-!
# Verification of the snow test-case execution engine

Shallow embedding of the core execution engine of the repository:

* `packages/core/src/shared/schemas.ts` — the Zod action contract
  (action shapes, sequence validation);
* `packages/core/src/shared/factory/TestCaseExecutor.ts` — the case
  orchestrator (`parse`, `execute`, `stop`, `reset`, `getTestCase`);
* the `AutomationAgent` (dispatcher) — `executeStep`,
  `buildExecutionOptions`, `parseTestCode`, `parseTestActionSequence`,
  `parseTestCodeOrActionSequence`, `isReady`, `destroy`.

JavaScript values flowing through validation and dispatch are modelled by
the `Json` inductive (with an explicit `undef` constructor for JS
`undefined`), Zod object schemas by lists of field specifications, and the
mutable `AutomationAgent`/`TestCaseExecutor` state by explicit state
passing.  Numbers are modelled as `Int` (no claim depends on float
semantics).  `Date.now()` is modelled by an explicitly threaded counter,
and `nanoid` step ids by the per-parse-unique step index.
-/

set_option autoImplicit false

namespace Snow

/-- A JavaScript value as seen by the engine: JSON5 data plus the JS
`undefined` marker (needed because the dispatcher distinguishes absent /
`undefined` fields from present ones). -/
inductive Json where
  | null : Json
  | undef : Json
  | bool : Bool → Json
  | num : Int → Json
  | str : String → Json
  | arr : List Json → Json
  | obj : List (String × Json) → Json

/-- First-match association lookup (a JS object has no duplicate keys, so
first-match agrees with JS property access). -/
def assocFind {α : Type} : List (String × α) → String → Option α
  | [], _ => none
  | (k', v) :: rest, k => if k' = k then some v else assocFind rest k

/-- Property read on a `Json` object (`undefined`-free absence is `none`). -/
def jGet (j : Json) (k : String) : Option Json :=
  match j with
  | .obj kvs => assocFind kvs k
  | _ => none

/-- JS truthiness of a value (`undefined`, `null`, `false`, `0`, `""` are
falsy). -/
def jsTruthyV : Json → Bool
  | .null => false
  | .undef => false
  | .bool b => b
  | .num n => n != 0
  | .str s => s ≠ ""
  | .arr _ => true
  | .obj _ => true

/-- JS truthiness of a possibly-absent property. -/
def jsTruthy : Option Json → Bool
  | none => false
  | some v => jsTruthyV v

/-- Is the value the JS `undefined` marker? -/
def jsIsUndef : Json → Bool
  | .undef => true
  | _ => false

/-- JS `a || b` on a possibly-absent left operand. -/
def jsOr (o : Option Json) (d : Json) : Json :=
  match o with
  | some v => if jsTruthyV v then v else d
  | none => d

/-- JS `a ?? b` (nullish coalescing) on a possibly-absent left operand. -/
def jsNullish (o : Option Json) (d : Json) : Json :=
  match o with
  | some .null => d
  | some .undef => d
  | some v => v
  | none => d

/-- A possibly-absent property passed as a JS argument (`undefined` when
absent). -/
def jsUndefOr (o : Option Json) : Json :=
  o.getD .undef

mutual
/-- JS string conversion used inside template literals. -/
def jsToString : Json → String
  | .str s => s
  | .num n => toString n
  | .bool true => "true"
  | .bool false => "false"
  | .null => "null"
  | .undef => "undefined"
  | .arr xs => jsToStringList xs
  | .obj _ => "[object Object]"

/-- JS `Array.prototype.toString`: elements joined by commas. -/
def jsToStringList : List Json → String
  | [] => ""
  | [x] => jsToString x
  | x :: xs => jsToString x ++ "," ++ jsToStringList xs
end

/-! ## The Zod validation model

A Zod object schema is a list of field specifications plus a strictness
flag.  `z.object` (default "strip" mode) ignores unknown keys; `.strict()`
rejects them.  A present key holding `undefined` is treated by Zod like an
absent key for `.optional()` fields and fails required fields. -/

/-- One field of a Zod object schema. -/
structure FieldSpec where
  name : String
  required : Bool
  check : Json → Bool

/-- A Zod object schema: strictness flag plus field list. -/
structure ObjSchema where
  strict : Bool
  fields : List FieldSpec

/-- Does one field specification accept the given object entries? -/
def checkField (kvs : List (String × Json)) (f : FieldSpec) : Bool :=
  match assocFind kvs f.name with
  | some v => if jsIsUndef v then !f.required else f.check v
  | none => !f.required

/-- Does a Zod object schema accept the given object entries? -/
def checkObj (sch : ObjSchema) (kvs : List (String × Json)) : Bool :=
  sch.fields.all (checkField kvs) &&
    (!sch.strict || kvs.all fun kv => sch.fields.any fun f => f.name = kv.1)

/-- A Zod object schema applied to an arbitrary value (non-objects are
rejected). -/
def checkObjJ (sch : ObjSchema) : Json → Bool
  | .obj kvs => checkObj sch kvs
  | _ => false

/-! ### Primitive checkers (`z.string()`, `z.number()`, ...) -/

def isString : Json → Bool
  | .str _ => true
  | _ => false

def isNumber : Json → Bool
  | .num _ => true
  | _ => false

def isBoolean : Json → Bool
  | .bool _ => true
  | _ => false

/-- `ScrollDirectionSchema = z.enum(['up','down','left','right'])`. -/
def isScrollDirection : Json → Bool
  | .str s => s = "up" || s = "down" || s = "left" || s = "right"
  | _ => false

/-- `ScrollTypeSchema = z.enum(['once','untilBottom','untilTop','untilLeft','untilRight'])`. -/
def isScrollType : Json → Bool
  | .str s =>
      s = "once" || s = "untilBottom" || s = "untilTop" || s = "untilLeft" ||
        s = "untilRight"
  | _ => false

/-- `DomIncludeOptionSchema = z.union([z.boolean(), z.literal('visible-only')])`. -/
def isDomIncludeOption : Json → Bool
  | .bool _ => true
  | .str s => s = "visible-only"
  | _ => false

/-- `KeyboardKeySchema = z.union([z.enum([...]), z.string()])` — the union
with `z.string()` accepts every string. -/
def isKeyboardKey (j : Json) : Bool :=
  (match j with
   | .str s =>
       s = "Enter" || s = "Tab" || s = "Escape" || s = "Backspace" ||
         s = "Delete" || s = "ArrowUp" || s = "ArrowDown" || s = "ArrowLeft" ||
         s = "ArrowRight"
   | _ => false) ||
    isString j

/-- `dataDemand: z.union([z.string(), z.record(z.string(), z.string())])`. -/
def isDataDemand : Json → Bool
  | .str _ => true
  | .obj kvs => kvs.all fun kv => isString kv.2
  | _ => false

/-- `PointSchema = z.object({ x: z.number(), y: z.number() })` (not strict). -/
def pointSchema : ObjSchema :=
  ⟨false, [⟨"x", true, isNumber⟩, ⟨"y", true, isNumber⟩]⟩

def isPoint : Json → Bool := checkObjJ pointSchema

/-- `LocateOptionSchema` — `.strict()`. -/
def locateOptionSchema : ObjSchema :=
  ⟨true, [⟨"deepThink", false, isBoolean⟩, ⟨"cacheable", false, isBoolean⟩]⟩

def isValidLocateOption : Json → Bool := checkObjJ locateOptionSchema

/-- `AndroidDeviceInputOptSchema` — `.strict()`. -/
def androidDeviceInputOptSchema : ObjSchema :=
  ⟨true, [⟨"autoDismissKeyboard", false, isBoolean⟩]⟩

def isValidAndroidDeviceInputOpt : Json → Bool :=
  checkObjJ androidDeviceInputOptSchema

/-- `ScrollParamSchema` — `.strict()`. -/
def scrollParamSchema : ObjSchema :=
  ⟨true,
    [⟨"direction", true, isScrollDirection⟩,
     ⟨"scrollType", true, isScrollType⟩,
     ⟨"distance", false, isNumber⟩]⟩

def isScrollParam : Json → Bool := checkObjJ scrollParamSchema

/-- `InsightExtractOptionSchema` — `.strict()`. -/
def insightExtractOptionSchema : ObjSchema :=
  ⟨true,
    [⟨"domIncluded", false, isDomIncludeOption⟩,
     ⟨"screenshotIncluded", false, isBoolean⟩]⟩

def isValidInsightExtractOption : Json → Bool :=
  checkObjJ insightExtractOptionSchema

/-- `AgentAssertOptSchema` — `.strict()`. -/
def agentAssertOptSchema : ObjSchema :=
  ⟨true, [⟨"timeoutMs", false, isNumber⟩]⟩

def isValidAgentAssertOpt : Json → Bool := checkObjJ agentAssertOptSchema

/-- `AgentWaitForOptSchema` — `.strict()`. -/
def agentWaitForOptSchema : ObjSchema :=
  ⟨true,
    [⟨"timeoutMs", false, isNumber⟩, ⟨"checkIntervalMs", false, isNumber⟩]⟩

def isValidAgentWaitForOpt : Json → Bool := checkObjJ agentWaitForOptSchema

/-- `LocatorValidatorOptionSchema` — `.strict()`. -/
def locatorValidatorOptionSchema : ObjSchema :=
  ⟨true,
    [⟨"verifyPrompt", false, isBoolean⟩,
     ⟨"retryLimit", false, isNumber⟩,
     ⟨"deepThink", false, isBoolean⟩]⟩

def isValidLocatorValidatorOption : Json → Bool :=
  checkObjJ locatorValidatorOptionSchema

/-! ### Per-tag action schemas

`schemas.ts` builds action shapes by `.extend`ing `BaseActionParamsSchema`
(whose `type` field is replaced by each variant's `z.literal`), then
spreading the `.shape` of the strict option schemas in.  Spreading
`.shape` contributes only the fields, not the strictness, so every
resulting action schema is a plain (non-strict, "strip" mode) `z.object`. -/

/-- `BaseActionParamsSchema.extend({ type: z.literal(tag) })`. -/
def baseFields (tag : String) : List FieldSpec :=
  [⟨"type", true, fun v => match v with | .str s => s = tag | _ => false⟩]

/-- `.extend(LocateOptionSchema.shape)`. -/
def locateOptionShape : List FieldSpec :=
  [⟨"deepThink", false, isBoolean⟩, ⟨"cacheable", false, isBoolean⟩]

/-- `.extend(AndroidDeviceInputOptSchema.shape)`. -/
def androidDeviceInputOptShape : List FieldSpec :=
  [⟨"autoDismissKeyboard", false, isBoolean⟩]

/-- `.extend(InsightExtractOptionSchema.shape)`. -/
def insightExtractOptionShape : List FieldSpec :=
  [⟨"domIncluded", false, isDomIncludeOption⟩,
   ⟨"screenshotIncluded", false, isBoolean⟩]

/-- `.extend(AgentAssertOptSchema.shape)`. -/
def agentAssertOptShape : List FieldSpec :=
  [⟨"timeoutMs", false, isNumber⟩]

/-- `.extend(AgentWaitForOptSchema.shape)`. -/
def agentWaitForOptShape : List FieldSpec :=
  [⟨"timeoutMs", false, isNumber⟩, ⟨"checkIntervalMs", false, isNumber⟩]

/-- `.extend(LocatorValidatorOptionSchema.shape)`. -/
def locatorValidatorOptionShape : List FieldSpec :=
  [⟨"verifyPrompt", false, isBoolean⟩,
   ⟨"retryLimit", false, isNumber⟩,
   ⟨"deepThink", false, isBoolean⟩]

/-- `AIPlanningParamsSchema` with the variant's type literal. -/
def planningFields (tag : String) : List FieldSpec :=
  baseFields tag ++ [⟨"prompt", true, isString⟩, ⟨"cacheable", false, isBoolean⟩]

/-- `InteractionParamsSchema` with the variant's type literal. -/
def interactionFields (tag : String) : List FieldSpec :=
  baseFields tag ++ [⟨"locate", true, isString⟩] ++ locateOptionShape

/-- `InputParamsSchema` with the variant's type literal. -/
def inputFields (tag : String) : List FieldSpec :=
  interactionFields tag ++ [⟨"text", true, isString⟩] ++ androidDeviceInputOptShape

/-- `KeyboardParamsSchema` with the variant's type literal. -/
def keyboardFields (tag : String) : List FieldSpec :=
  baseFields tag ++
    [⟨"key", true, isKeyboardKey⟩, ⟨"locate", false, isString⟩] ++
    locateOptionShape

/-- `ScrollParamsSchema` with the variant's type literal. -/
def scrollFields (tag : String) : List FieldSpec :=
  baseFields tag ++
    [⟨"scrollParam", true, isScrollParam⟩, ⟨"locate", false, isString⟩] ++
    locateOptionShape

/-- `QueryParamsSchema` with the variant's type literal. -/
def queryFields (tag : String) : List FieldSpec :=
  baseFields tag ++ [⟨"dataDemand", true, isDataDemand⟩] ++
    insightExtractOptionShape

/-- `AIPlanningParamsSchema.extend(InsightExtractOptionSchema.shape)` with
the variant's type literal (used by aiAsk/aiBoolean/aiNumber/aiString). -/
def extractFields (tag : String) : List FieldSpec :=
  planningFields tag ++ insightExtractOptionShape

/-- `AssertParamsSchema` with the variant's type literal. -/
def assertFields (tag : String) : List FieldSpec :=
  baseFields tag ++
    [⟨"assertion", true, isString⟩, ⟨"errorMsg", false, isString⟩] ++
    agentAssertOptShape

/-- `WaitForParamsSchema` with the variant's type literal. -/
def waitForFields (tag : String) : List FieldSpec :=
  baseFields tag ++ [⟨"assertion", true, isString⟩] ++ agentWaitForOptShape

/-- `DescribeElementParamsSchema` with the variant's type literal. -/
def describeElementFields (tag : String) : List FieldSpec :=
  baseFields tag ++ [⟨"x", true, isNumber⟩, ⟨"y", true, isNumber⟩] ++
    locatorValidatorOptionShape

/-- `YamlParamsSchema` with the variant's type literal. -/
def yamlFields (tag : String) : List FieldSpec :=
  baseFields tag ++ [⟨"yamlScriptContent", true, isString⟩]

/-- `ContextParamsSchema` with the variant's type literal. -/
def contextFields (tag : String) : List FieldSpec :=
  baseFields tag ++ [⟨"actionContext", true, isString⟩]

/-- `JavaScriptParamsSchema` with the variant's type literal. -/
def javaScriptFields (tag : String) : List FieldSpec :=
  baseFields tag ++ [⟨"script", true, isString⟩]

/-- `ScreenshotParamsSchema` with the variant's type literal. -/
def screenshotFields (tag : String) : List FieldSpec :=
  baseFields tag ++
    [⟨"title", false, isString⟩, ⟨"content", false, isString⟩]

/-- The `verifyLocator` variant's fields. -/
def verifyLocatorFields : List FieldSpec :=
  baseFields "verifyLocator" ++
    [⟨"prompt", true, isString⟩, ⟨"expectCenter", true, isPoint⟩] ++
    locatorValidatorOptionShape

/-- `AIActionSchema = z.discriminatedUnion('type', [...])`: discriminator
value to variant schema (all variants are non-strict `z.object`s). -/
def actionVariants : List (String × ObjSchema) :=
  [("ai", ⟨false, planningFields "ai"⟩),
   ("aiAction", ⟨false, planningFields "aiAction"⟩),
   ("aiTap", ⟨false, interactionFields "aiTap"⟩),
   ("aiHover", ⟨false, interactionFields "aiHover"⟩),
   ("aiRightClick", ⟨false, interactionFields "aiRightClick"⟩),
   ("aiDoubleClick", ⟨false, interactionFields "aiDoubleClick"⟩),
   ("aiLocate", ⟨false, interactionFields "aiLocate"⟩),
   ("aiInput", ⟨false, inputFields "aiInput"⟩),
   ("aiKeyboardPress", ⟨false, keyboardFields "aiKeyboardPress"⟩),
   ("aiScroll", ⟨false, scrollFields "aiScroll"⟩),
   ("aiQuery", ⟨false, queryFields "aiQuery"⟩),
   ("aiExtract", ⟨false, queryFields "aiExtract"⟩),
   ("aiAsk", ⟨false, extractFields "aiAsk"⟩),
   ("aiBoolean", ⟨false, extractFields "aiBoolean"⟩),
   ("aiNumber", ⟨false, extractFields "aiNumber"⟩),
   ("aiString", ⟨false, extractFields "aiString"⟩),
   ("aiAssert", ⟨false, assertFields "aiAssert"⟩),
   ("aiWaitFor", ⟨false, waitForFields "aiWaitFor"⟩),
   ("describeElementAtPoint",
     ⟨false, describeElementFields "describeElementAtPoint"⟩),
   ("runYaml", ⟨false, yamlFields "runYaml"⟩),
   ("setAIActionContext", ⟨false, contextFields "setAIActionContext"⟩),
   ("evaluateJavaScript", ⟨false, javaScriptFields "evaluateJavaScript"⟩),
   ("logScreenshot", ⟨false, screenshotFields "logScreenshot"⟩),
   ("freezePageContext", ⟨false, baseFields "freezePageContext"⟩),
   ("unfreezePageContext", ⟨false, baseFields "unfreezePageContext"⟩),
   ("verifyLocator", ⟨false, verifyLocatorFields⟩)]

/-- `AIActionSchema` validation on an object's entries: a discriminated
union on the `type` property; an unknown or non-string discriminator is
rejected. -/
def isValidAIActionKvs (kvs : List (String × Json)) : Bool :=
  match assocFind kvs "type" with
  | some (.str t) =>
      match assocFind actionVariants t with
      | some sch => checkObj sch kvs
      | none => false
  | _ => false

/-- `AIActionSchema` validation (non-objects are rejected). -/
def isValidAIAction : Json → Bool
  | .obj kvs => isValidAIActionKvs kvs
  | _ => false

/-! ### Action sequences (`ActionSequenceSchema` and `.parse`) -/

/-- The typed action sequence (data produced by a successful
`ActionSequenceSchema.parse`): validated actions, the parallel
display-code list and the sequence description. -/
structure ActionSequenceM where
  actions : List Json
  code : List String
  description : String

/-- `z.array(z.string()).parse` on an element list. -/
def parseStringList : List Json → Option (List String)
  | [] => some []
  | .str s :: rest => (parseStringList rest).map (s :: ·)
  | _ => none

/-- `schemas.ActionSequence.parse`: validate and extract.  Mirrors
`ActionSequenceSchema = z.object({ actions: z.array(AIActionSchema),
display: z.object({ code: z.array(z.string()), description: z.string() }) })`.
The schema contains no comparison between `actions.length` and
`display.code.length`. -/
def zodParseActionSequence (j : Json) : Option ActionSequenceM :=
  match j with
  | .obj kvs =>
      match assocFind kvs "actions", assocFind kvs "display" with
      | some (.arr as), some (.obj dkvs) =>
          if as.all isValidAIAction then
            match assocFind dkvs "code", assocFind dkvs "description" with
            | some (.arr cs), some (.str d) =>
                (parseStringList cs).map fun codes => ⟨as, codes, d⟩
            | _, _ => none
          else none
      | _, _ => none
  | _ => none

/-- Does `ActionSequenceSchema` accept the value? -/
def isValidActionSequence (j : Json) : Bool :=
  (zodParseActionSequence j).isSome

/-! ## Step and case model (`automationTypes.ts` / `schemas.ts`) -/

/-- `TestStepStatusSchema = z.enum(['pending','running','success','failed','skipped'])`. -/
inductive StepStatus where
  | pending | running | success | failed | skipped
  deriving DecidableEq, BEq, Repr

/-- `TestCaseStatusSchema = z.enum(['created','running','completed','failed','stopped'])`. -/
inductive CaseStatus where
  | created | running | completed | failed | stopped
  deriving DecidableEq, BEq, Repr

/-- A `TestStep`: the validated action's fields (kept as the `Json` object
they were spread from) plus the execution-state fields.  `nanoid` is
modelled by the per-parse-unique step index. -/
structure TestStepM where
  action : Json
  id : Nat
  description : String
  status : StepStatus
  startTime : Option Nat := none
  endTime : Option Nat := none
  result : Option Json := none
  error : Option String := none
  rawCode : Option String := none

/-- Property read on a step's spread-in action fields.  The base step
fields (`id`, `description`, `status`, ...) never collide with the action
field names read by the dispatcher, so reading the action object is
equivalent to reading the step. -/
def stepGet (s : TestStepM) (k : String) : Option Json :=
  jGet s.action k

/-- A `TestCase`. -/
structure TestCaseM where
  id : Nat
  name : String
  userInput : String
  code : Option String := none
  actionSequence : Option ActionSequenceM := none
  steps : List TestStepM
  status : CaseStatus
  startTime : Option Nat := none
  endTime : Option Nat := none
  error : Option String := none

/-- The orchestrator's lifecycle events (`TestCaseExecutorEvents`).  Step
events carry the step id; case events carry the case snapshot's status. -/
inductive EventM where
  | caseStatusChanged (status : CaseStatus)
  | stepStarted (stepId : Nat)
  | stepCompleted (stepId : Nat)
  | caseParsed
  deriving DecidableEq, Repr

/-- Is this one of the two per-step events? -/
def EventM.isStepEvent : EventM → Bool
  | .stepStarted _ => true
  | .stepCompleted _ => true
  | _ => false

/-! ## `AutomationAgent.generateDescription` -/

/-- A property rendered as in a JS template literal (`undefined` when
absent). -/
def fieldStr (a : Json) (k : String) : String :=
  jsToString (jsUndefOr (jGet a k))

/-- A property rendered by presence: `'k' in action ? action.k : 'unknown'`. -/
def fieldStrOr (a : Json) (k dflt : String) : String :=
  match jGet a k with
  | some v => jsToString v
  | none => dflt

/-- The feature suffix: deep think / no cache / xpath override. -/
def descFeatures (a : Json) : String :=
  let fs : List String :=
    (if jsTruthy (jGet a "deepThink") then ["deep think"] else []) ++
      (if (match jGet a "cacheable" with
           | some (.bool false) => true
           | _ => false) then ["no cache"] else []) ++
      (if jsTruthy (jGet a "xpath") then ["xpath override"] else [])
  if fs.isEmpty then "" else " (" ++ String.intercalate ", " fs ++ ")"

/-- `AutomationAgent.generateDescription`, transcribed case by case.  The
switch has no cases for `freezePageContext` / `unfreezePageContext` /
`verifyLocator`, which therefore fall through to the default branch. -/
def generateDescription (a : Json) : String :=
  let ft := descFeatures a
  let ty := jGet a "type"
  match ty with
  | some (.str t) =>
      if t = "ai" then "AI auto-plan: " ++ fieldStr a "prompt" ++ ft
      else if t = "aiAction" then "AI action: " ++ fieldStr a "prompt" ++ ft
      else if t = "aiTap" then "AI tap: " ++ fieldStr a "locate" ++ ft
      else if t = "aiInput" then
        "AI input \"" ++ fieldStr a "text" ++ "\" to \"" ++
          fieldStr a "locate" ++ "\"" ++ ft
      else if t = "aiHover" then "AI hover: " ++ fieldStr a "locate" ++ ft
      else if t = "aiKeyboardPress" then
        let keyName := fieldStrOr a "key" "unknown"
        let keyTarget :=
          if jsTruthy (jGet a "locate") then
            " on \"" ++ fieldStr a "locate" ++ "\""
          else ""
        "AI keyboard press \"" ++ keyName ++ "\"" ++ keyTarget ++ ft
      else if t = "aiScroll" then
        let sp := jGet a "scrollParam"
        let dist := sp.bind (jGet · "distance")
        let scrollInfo :=
          if jsTruthy dist then " " ++ jsToString (jsUndefOr dist) ++ "px"
          else ""
        let dir := sp.bind (jGet · "direction")
        let scrollDirection :=
          if jsTruthy dir then jsToString (jsUndefOr dir) else "unknown"
        "AI scroll " ++ scrollDirection ++ scrollInfo ++ ft
      else if t = "aiRightClick" then
        "AI right click: " ++ fieldStrOr a "locate" "unknown" ++ ft
      else if t = "aiDoubleClick" then
        "AI double click: " ++ fieldStrOr a "locate" "unknown" ++ ft
      else if t = "aiQuery" then
        let demand := (jGet a "dataDemand").getD (.str "")
        let keys :=
          match demand with
          | .obj kvs => kvs.map Prod.fst
          | other => [jsToString other]
        "AI query: " ++ String.intercalate ", " keys ++ ft
      else if t = "aiExtract" then
        let demand := (jGet a "dataDemand").getD (.str "")
        let keys :=
          match demand with
          | .obj kvs => kvs.map Prod.fst
          | other => [jsToString other]
        "AI extract: " ++ String.intercalate ", " keys ++ ft
      else if t = "aiAssert" then
        "AI assert: " ++ fieldStrOr a "assertion" "unknown" ++ ft
      else if t = "aiWaitFor" then
        let timeoutInfo :=
          if jsTruthy (jGet a "timeoutMs") then
            " (timeout: " ++ fieldStr a "timeoutMs" ++ "ms)"
          else ""
        "AI wait for: " ++ fieldStrOr a "assertion" "unknown" ++ timeoutInfo ++ ft
      else if t = "aiLocate" then
        "AI locate: " ++ fieldStrOr a "locate" "unknown" ++ ft
      else if t = "aiAsk" then "AI ask: " ++ fieldStrOr a "prompt" "unknown" ++ ft
      else if t = "aiBoolean" then
        "AI boolean: " ++ fieldStrOr a "prompt" "unknown" ++ ft
      else if t = "aiNumber" then
        "AI number: " ++ fieldStrOr a "prompt" "unknown" ++ ft
      else if t = "aiString" then
        "AI string: " ++ fieldStrOr a "prompt" "unknown" ++ ft
      else if t = "logScreenshot" then
        let titleVal := (jGet a "title").getD (.str "screenshot")
        let shown :=
          if jsTruthyV titleVal then jsToString titleVal else "screenshot"
        "Log screenshot: " ++ shown ++ ft
      else if t = "runYaml" then "Run YAML script" ++ ft
      else if t = "setAIActionContext" then
        "Set AI action context: " ++ fieldStrOr a "actionContext" "unknown" ++ ft
      else if t = "evaluateJavaScript" then "Evaluate JavaScript" ++ ft
      else if t = "describeElementAtPoint" then
        let coords :=
          match jGet a "x", jGet a "y" with
          | some x, some y =>
              if jsIsUndef x || jsIsUndef y then "unknown"
              else "(" ++ jsToString x ++ ", " ++ jsToString y ++ ")"
          | _, _ => "unknown"
        "Describe element at point: " ++ coords ++ ft
      else "Unknown action: " ++ t
  | other => "Unknown action: " ++ jsToString (jsUndefOr other)

/-! ## `AutomationAgent` parsing -/

/-- The shared action-to-step mapping used by both `parseTestCode` and
`parseTestActionSequence` (both map an action plus
`display.code[index]` to a pending step with a fresh id and a generated
description; `display.code[index]` is `undefined` when the code list is
shorter than the action list). -/
def actionToStep (code : List String) (i : Nat) (a : Json) : TestStepM :=
  { action := a
    id := i
    description := generateDescription a
    status := .pending
    rawCode := code.get? i }

/-- `AutomationAgent.parseTestActionSequence`. -/
def parseTestActionSequence (seq : ActionSequenceM) : List TestStepM :=
  seq.actions.mapIdx fun i a => actionToStep seq.code i a

/-- The (modelled) message of a Zod validation error; the engine only
forwards error messages opaquely, so the exact Zod text is immaterial. -/
def zodErrorMsg : String := "Invalid action sequence"

/-- `AutomationAgent.parseTestCode`.  The external `JSON5.parse` is passed
in as `json5` (it either returns a value or throws a message); any error
is wrapped in `Failed to parse test code: ...` and rethrown. -/
def parseTestCode (json5 : String → Except String Json) (code : String) :
    Except String (List TestStepM) :=
  match json5 code with
  | .error e => .error ("Failed to parse test code: " ++ e)
  | .ok raw =>
      match zodParseActionSequence raw with
      | none => .error ("Failed to parse test code: " ++ zodErrorMsg)
      | some seq => .ok (parseTestActionSequence seq)

/-- `AutomationAgent.parseTestCodeOrActionSequence`.  A present action
sequence (an object, always truthy) wins; otherwise a truthy code string
(the empty string is falsy in JS) is parsed; otherwise the step list is
empty. -/
def parseTestCodeOrActionSequence (json5 : String → Except String Json)
    (actionSequence : Option ActionSequenceM) (code : Option String) :
    Except String (List TestStepM) :=
  match actionSequence with
  | some seq => .ok (parseTestActionSequence seq)
  | none =>
      match code with
      | some c => if c = "" then .ok [] else parseTestCode json5 c
      | none => .ok []

/-! ## The dispatcher (`AutomationAgent.executeStep`) -/

/-- The `AutomationAgent`'s mutable fields: `agent`, `page` (null or not)
and `isInitialized`. -/
structure AgentState where
  hasAgent : Bool
  hasPage : Bool
  isInitialized : Bool
  deriving DecidableEq, Repr

/-- `AutomationAgent.createAgent`: fresh page and agent, initialized. -/
def createAgent : AgentState := ⟨true, true, true⟩

/-- `AutomationAgent.reset`: agent and page nulled, not initialized. -/
def agentResetState : AgentState := ⟨false, false, false⟩

/-- `AutomationAgent.destroy`: tears the page down (any teardown error is
caught and logged) and always resets in the `finally`. -/
def agentDestroy (_ : AgentState) : AgentState := agentResetState

/-- `AutomationAgent.isReady`. -/
def isReady (s : AgentState) : Bool := s.isInitialized && s.hasAgent

/-- The field names `buildExecutionOptions` copies, in source order. -/
def executionOptionFields : List String :=
  ["deepThink", "xpath", "cacheable", "autoDismissKeyboard", "domIncluded",
   "screenshotIncluded", "timeoutMs", "checkIntervalMs", "verifyPrompt",
   "retryLimit"]

/-- One `if ('k' in step && step.k !== undefined) options.k = step.k`
clause of `buildExecutionOptions`. -/
def addOpt (kvs : List (String × Json)) (bag : List (String × Json))
    (k : String) : List (String × Json) :=
  match assocFind kvs k with
  | some v => if jsIsUndef v then bag else bag ++ [(k, v)]
  | none => bag

/-- `AutomationAgent.buildExecutionOptions`: copy each of the ten option
fields that is present (and not `undefined`) on the step, in source order,
with no defaulting. -/
def buildExecutionOptions (s : TestStepM) : List (String × Json) :=
  let kvs := match s.action with | .obj kvs => kvs | _ => []
  executionOptionFields.foldl (addOpt kvs) []

/-- JS object spread `{ ...base, ...extra }`: keys of `base` keep their
position but take `extra`'s value when overridden; keys only in `extra`
are appended in order. -/
def mergeObj (base extra : List (String × Json)) : List (String × Json) :=
  base.map (fun kv => (kv.1, (assocFind extra kv.1).getD kv.2)) ++
    extra.filter fun kv => (assocFind base kv.1).isNone

/-- The outcome of the `switch (step.type)` routing in `executeStep`:
either a backend call (method, positional arguments, options object), an
agent-local call (`setAIActionContext`, which produces `result = true`
without a backend round-trip), a skip (a falsy guard leaves `result`
undefined and the step still succeeds), or the `default:` throw for a
type the switch does not handle. -/
inductive Routed where
  | backendCall (method : String) (args : List Json)
      (opts : List (String × Json))
  | localCall (result : Json)
  | skip
  | unsupported (msg : String)

/-- The `switch (step.type)` of `AutomationAgent.executeStep`, transcribed
case by case.  Note that `freezePageContext`, `unfreezePageContext` and
`verifyLocator` have no case and fall through to the `default:` throw. -/
def routeByTag (t : String) (s : TestStepM) : Routed :=
  let options := buildExecutionOptions s
  if t = "ai" then
    if jsTruthy (stepGet s "prompt") then
      .backendCall "ai" [jsUndefOr (stepGet s "prompt")] options
    else .skip
  else if t = "aiAction" then
    if jsTruthy (stepGet s "prompt") then
      .backendCall "aiAction" [jsUndefOr (stepGet s "prompt")]
        (mergeObj [("cacheable", jsNullish (stepGet s "cacheable") (.bool true))]
          options)
    else .skip
  else if t = "aiTap" then
    if jsTruthy (stepGet s "locate") then
      .backendCall "aiTap" [jsUndefOr (stepGet s "locate")] options
    else .skip
  else if t = "aiInput" then
    if jsTruthy (stepGet s "text") && jsTruthy (stepGet s "locate") then
      .backendCall "aiInput"
        [jsUndefOr (stepGet s "text"), jsUndefOr (stepGet s "locate")]
        (mergeObj
          [("autoDismissKeyboard",
             jsNullish (stepGet s "autoDismissKeyboard") (.bool true))]
          options)
    else .skip
  else if t = "aiHover" then
    if jsTruthy (stepGet s "locate") then
      .backendCall "aiHover" [jsUndefOr (stepGet s "locate")] options
    else .skip
  else if t = "aiKeyboardPress" then
    if jsTruthy (stepGet s "key") then
      .backendCall "aiKeyboardPress"
        [jsUndefOr (stepGet s "key"), jsUndefOr (stepGet s "locate")] options
    else .skip
  else if t = "aiScroll" then
    if jsTruthy (stepGet s "scrollParam") then
      .backendCall "aiScroll"
        [jsUndefOr (stepGet s "scrollParam"), jsUndefOr (stepGet s "locate")]
        options
    else .skip
  else if t = "aiRightClick" then
    if jsTruthy (stepGet s "locate") then
      .backendCall "aiRightClick" [jsUndefOr (stepGet s "locate")] options
    else .skip
  else if t = "aiDoubleClick" then
    if jsTruthy (stepGet s "locate") then
      .backendCall "aiTap"
        [.str ("double click on " ++ jsToString (jsUndefOr (stepGet s "locate")))]
        options
    else .skip
  else if t = "aiQuery" then
    if jsTruthy (stepGet s "dataDemand") then
      .backendCall "aiQuery" [jsUndefOr (stepGet s "dataDemand")]
        (mergeObj
          [("domIncluded", jsNullish (stepGet s "domIncluded") (.bool false)),
           ("screenshotIncluded",
             jsNullish (stepGet s "screenshotIncluded") (.bool true))]
          options)
    else .skip
  else if t = "aiExtract" then
    if jsTruthy (stepGet s "dataDemand") then
      .backendCall "aiQuery" [jsUndefOr (stepGet s "dataDemand")]
        (mergeObj
          [("domIncluded", jsNullish (stepGet s "domIncluded") (.bool false)),
           ("screenshotIncluded",
             jsNullish (stepGet s "screenshotIncluded") (.bool true))]
          options)
    else .skip
  else if t = "aiAssert" then
    if jsTruthy (stepGet s "assertion") then
      .backendCall "aiAssert"
        [jsUndefOr (stepGet s "assertion"), jsUndefOr (stepGet s "errorMsg")]
        (mergeObj [("timeoutMs", jsOr (stepGet s "timeoutMs") (.num 15000))]
          options)
    else .skip
  else if t = "aiWaitFor" then
    if jsTruthy (stepGet s "assertion") then
      .backendCall "aiWaitFor" [jsUndefOr (stepGet s "assertion")]
        (mergeObj
          [("timeoutMs", jsOr (stepGet s "timeoutMs") (.num 15000)),
           ("checkIntervalMs",
             jsOr (stepGet s "checkIntervalMs") (.num 3000))]
          options)
    else .skip
  else if t = "aiLocate" then
    if jsTruthy (stepGet s "locate") then
      .backendCall "aiLocate" [jsUndefOr (stepGet s "locate")] options
    else .skip
  else if t = "aiAsk" then
    if jsTruthy (stepGet s "prompt") then
      .backendCall "aiAsk" [jsUndefOr (stepGet s "prompt")]
        (mergeObj
          [("domIncluded", jsNullish (stepGet s "domIncluded") (.bool false)),
           ("screenshotIncluded",
             jsNullish (stepGet s "screenshotIncluded") (.bool true))]
          options)
    else .skip
  else if t = "aiBoolean" then
    if jsTruthy (stepGet s "prompt") then
      .backendCall "aiBoolean" [jsUndefOr (stepGet s "prompt")]
        (mergeObj
          [("domIncluded", jsNullish (stepGet s "domIncluded") (.bool false)),
           ("screenshotIncluded",
             jsNullish (stepGet s "screenshotIncluded") (.bool true))]
          options)
    else .skip
  else if t = "aiNumber" then
    if jsTruthy (stepGet s "prompt") then
      .backendCall "aiNumber" [jsUndefOr (stepGet s "prompt")]
        (mergeObj
          [("domIncluded", jsNullish (stepGet s "domIncluded") (.bool false)),
           ("screenshotIncluded",
             jsNullish (stepGet s "screenshotIncluded") (.bool true))]
          options)
    else .skip
  else if t = "aiString" then
    if jsTruthy (stepGet s "prompt") then
      .backendCall "aiString" [jsUndefOr (stepGet s "prompt")]
        (mergeObj
          [("domIncluded", jsNullish (stepGet s "domIncluded") (.bool false)),
           ("screenshotIncluded",
             jsNullish (stepGet s "screenshotIncluded") (.bool true))]
          options)
    else .skip
  else if t = "logScreenshot" then
    .backendCall "logScreenshot" [jsUndefOr (stepGet s "title")]
      (mergeObj
        [("title", jsUndefOr (stepGet s "title")),
         ("content", jsUndefOr (stepGet s "content"))]
        options)
  else if t = "runYaml" then
    if jsTruthy (stepGet s "yamlScriptContent") then
      .backendCall "runYaml" [jsUndefOr (stepGet s "yamlScriptContent")] []
    else .skip
  else if t = "setAIActionContext" then
    if jsTruthy (stepGet s "actionContext") then .localCall (.bool true)
    else .skip
  else if t = "evaluateJavaScript" then
    if jsTruthy (stepGet s "script") then
      .backendCall "evaluateJavaScript" [jsUndefOr (stepGet s "script")] []
    else .skip
  else if t = "describeElementAtPoint" then
    if !jsIsUndef (jsUndefOr (stepGet s "x")) &&
        !jsIsUndef (jsUndefOr (stepGet s "y")) then
      .backendCall "describeElementAtPoint"
        [.arr [jsUndefOr (stepGet s "x"), jsUndefOr (stepGet s "y")]]
        (mergeObj
          [("verifyPrompt", jsUndefOr (stepGet s "verifyPrompt")),
           ("retryLimit", jsUndefOr (stepGet s "retryLimit")),
           ("deepThink", jsUndefOr (stepGet s "deepThink"))]
          options)
    else .skip
  else .unsupported ("Unsupported step type: " ++ t)

/-- Routing on `step.type` (a non-string or absent `type` falls through
to the `default:` throw, rendered with JS string conversion). -/
def routeStep (s : TestStepM) : Routed :=
  match stepGet s "type" with
  | some (.str t) => routeByTag t s
  | other =>
      .unsupported ("Unsupported step type: " ++ jsToString (jsUndefOr other))

/-- The backend capability: a method name, positional arguments and an
options object, returning a result or throwing an error message. -/
def Backend : Type := String → List Json → List (String × Json) → Except String Json

/-- `step.startTime ||= Date.now()` (JS `||=`: a present `0` is falsy and
is overwritten). -/
def stampStartIfFalsy (s : TestStepM) (t : Nat) : TestStepM :=
  match s.startTime with
  | some v => if v = 0 then { s with startTime := some t } else s
  | none => { s with startTime := some t }

/-- The `try`/`catch` body of `AutomationAgent.executeStep` applied to one
step: route, call the backend, and on success record `success`/end
time/result; any exception thrown during dispatch (including the
`default:` throw for an unsupported type) is caught and recorded as a
`failed` status with the exception's message — nothing escapes the
`catch`.  A falsy routing guard performs no call and still ends in
`success` with an undefined result, exactly as in the source. -/
def dispatchStep (backend : Backend) (t : Nat) (s1 : TestStepM) : TestStepM :=
  match routeStep s1 with
  | .backendCall m args opts =>
      match backend m args opts with
      | .ok r =>
          { s1 with status := .success, endTime := some t, result := some r }
      | .error e =>
          { s1 with status := .failed, endTime := some t, error := some e }
  | .localCall r =>
      { s1 with status := .success, endTime := some t, result := some r }
  | .skip =>
      { s1 with status := .success, endTime := some t, result := none }
  | .unsupported msg =>
      { s1 with status := .failed, endTime := some t, error := some msg }

/-- `AutomationAgent.executeStep`: destroy and recreate the driver, run
the guarded `try` body (`dispatchStep`), and tear the driver down in the
`finally` on every exit path.  `step.status ||= 'running'` is a no-op
because every status enum string is truthy; `step.startTime ||=
Date.now()` is modelled by `stampStartIfFalsy`.  The result type is
`Except` so that "never rethrows" is itself provable: the only `throw`
outside the `try` is the `Agent not initialized` guard, unreachable
because `createAgent` always installs an agent. -/
def executeStep (backend : Backend) (t : Nat) (s : TestStepM)
    (st : AgentState) : Except String (TestStepM × AgentState) :=
  let _ := agentDestroy st
  let st1 := createAgent
  if !st1.hasAgent then .error "Agent not initialized"
  else .ok (dispatchStep backend t (stampStartIfFalsy s t), agentDestroy st1)

/-! ## The orchestrator (`TestCaseExecutor`)

Execution is modelled against an abstract dispatcher
`dispatch : TestStepM → TestStepM` (the awaited
`this.agent.executeStep(step)`, which returns the step with its outcome
fields populated).  `Date.now()` is a counter advanced once per
observation point. -/

/-- The body of an iteration before dispatch:
`step.status = 'running'; step.startTime = Date.now()`. -/
def markRunning (s : TestStepM) (t : Nat) : TestStepM :=
  { s with status := .running, startTime := some t }

/-- The observable outcome of the step loop: the (partially updated) step
list, the emitted step events, the number of steps actually dispatched,
and the final clock. -/
structure RunResult where
  steps : List TestStepM
  events : List EventM
  dispatched : Nat
  clock : Nat

/-- `TestCaseExecutor.executeStepsWithProgress`: iterate the steps in
index order, mark each running, emit `stepStarted`, dispatch, emit
`stepCompleted`, and break out of the loop as soon as a dispatched result
has status `failed`. -/
def runStepsLoop (dispatch : TestStepM → TestStepM) (t : Nat) :
    List TestStepM → RunResult
  | [] => ⟨[], [], 0, t⟩
  | s :: rest =>
      let s' := dispatch (markRunning s t)
      let evs := [EventM.stepStarted s.id, EventM.stepCompleted s.id]
      if s'.status = .failed then ⟨s' :: rest, evs, 1, t + 1⟩
      else
        let r := runStepsLoop dispatch (t + 1) rest
        ⟨s' :: r.steps, evs ++ r.events, r.dispatched + 1, r.clock⟩

/-- The observable outcome of `execute`: the returned case snapshot, all
emitted events in order, and the dispatched-step count. -/
structure ExecResult where
  testCase : TestCaseM
  events : List EventM
  dispatched : Nat

/-- `TestCaseExecutor.execute`: set status `running` (emitting
`caseStatusChanged`), stamp the start time, run the loop, set the final
status to `completed` exactly when every step in the list has status
`success` (`result.every(step => step.status === 'success')` over the
whole array returned by the loop), stamp the end time, and emit the
final `caseStatusChanged`. -/
def executeCase (dispatch : TestStepM → TestStepM) (t0 : Nat)
    (tc : TestCaseM) : ExecResult :=
  let tc1 := { tc with status := .running, startTime := some t0 }
  let r := runStepsLoop dispatch (t0 + 1) tc1.steps
  let success := r.steps.all fun s => s.status == .success
  let final : CaseStatus := if success then .completed else .failed
  let tc2 :=
    { tc1 with steps := r.steps, status := final, endTime := some r.clock }
  ⟨tc2, EventM.caseStatusChanged .running :: r.events ++
    [EventM.caseStatusChanged final], r.dispatched⟩

/-- `TestCaseExecutor.parse`: a destroyed executor returns silently; the
agent is always constructed, so the `Agent not available` guard never
fires.  On success the step list is replaced and `caseParsed` is emitted;
on a parse/validation error the case's top-level `error` is set, the case
transitions to `failed` (emitting `caseStatusChanged`), the step list is
left untouched, and the error is rethrown (returned as the middle
component). -/
def parseCase (json5 : String → Except String Json) (isDestroyed : Bool)
    (tc : TestCaseM) : TestCaseM × Option String × List EventM :=
  if isDestroyed then (tc, none, [])
  else
    match parseTestCodeOrActionSequence json5 tc.actionSequence tc.code with
    | .ok steps =>
        ({ tc with steps := steps }, none, [EventM.caseParsed])
    | .error e =>
        ({ tc with error := some e, status := .failed }, some e,
          [EventM.caseStatusChanged .failed])

/-- `TestCaseExecutor.stop`: only a running case transitions to
`stopped`. -/
def stopCase (tc : TestCaseM) : TestCaseM × List EventM :=
  if tc.status = .running then
    ({ tc with status := .stopped }, [EventM.caseStatusChanged .stopped])
  else (tc, [])

/-- `TestCaseExecutor.reset`: unconditionally return to `created` with an
empty step list (the source has no guard on the current status). -/
def resetCase (tc : TestCaseM) : TestCaseM × List EventM :=
  ({ tc with status := .created, steps := [] },
    [EventM.caseStatusChanged .created])

/-! ## Object identity for `getTestCase` snapshots

`getTestCase()` returns `{ ...this.testCase }` — a JS shallow copy: a
fresh top-level object whose scalar fields are copies but whose `steps`
field is the same array reference.  To talk about identity and aliasing,
case objects and step arrays live in an explicit store: a case object
holds the *address* of its steps array, and a shallow copy duplicates the
case record (including that address) at a fresh case address. -/

/-- A stored case object: the scalar fields plus the address of its steps
array. -/
structure CaseObj where
  status : CaseStatus
  error : Option String
  name : String
  stepsAddr : Nat
  deriving Repr

/-- The store: case objects and step arrays, addressed by index. -/
structure Mem where
  cases : List CaseObj
  stepArrays : List (List TestStepM)

/-- Replace the element at an index (out-of-range writes are dropped). -/
def listModify {α : Type} (l : List α) (i : Nat) (f : α → α) : List α :=
  match l.get? i with
  | some x => l.set i (f x)
  | none => l

/-- Dereference a case address. -/
def readCase (m : Mem) (a : Nat) : Option CaseObj := m.cases.get? a

/-- Allocate a case object at a fresh address. -/
def allocCase (m : Mem) (c : CaseObj) : Nat × Mem :=
  (m.cases.length, { m with cases := m.cases ++ [c] })

/-- `TestCaseExecutor.getTestCase` on the executor owning the case at
address `self`: allocate a fresh object with the same field values —
including the same `stepsAddr`, because spread copies the array
*reference*. -/
def getTestCaseAt (m : Mem) (self : Nat) : Option (Nat × Mem) :=
  (readCase m self).map fun c => allocCase m c

/-- The steps a case object at address `a` sees (dereferencing its
`stepsAddr`). -/
def caseSteps (m : Mem) (a : Nat) : Option (List TestStepM) :=
  (readCase m a).bind fun c => m.stepArrays.get? c.stepsAddr

/-- A caller mutating a snapshot's steps:
`snapshot.steps[i].status = st` writes through the shared array
reference. -/
def setStepStatusVia (m : Mem) (a : Nat) (i : Nat) (st : StepStatus) : Mem :=
  match readCase m a with
  | none => m
  | some c =>
      { m with
        stepArrays :=
          listModify m.stepArrays c.stepsAddr fun arr =>
            listModify arr i fun s => { s with status := st } }

/-- A caller mutating a snapshot's own top-level field:
`snapshot.status = st` writes only the snapshot's object. -/
def setCaseStatusVia (m : Mem) (a : Nat) (st : CaseStatus) : Mem :=
  { m with cases := listModify m.cases a fun c => { c with status := st } }

/-- The 26 discriminator values `AIActionSchema` recognises. -/
def actionTypeTags : List String := actionVariants.map Prod.fst

/-! # Helper lemmas -/

theorem assocFind_eq_none {α : Type} (l : List (String × α)) (k : String)
    (h : k ∉ l.map Prod.fst) : assocFind l k = none := by
  induction l with
  | nil => rfl
  | cons kv rest ih =>
      obtain ⟨k', v⟩ := kv
      simp only [List.map_cons, List.mem_cons, not_or] at h
      simp only [assocFind]
      rw [if_neg fun e => h.1 e.symm]
      exact ih h.2

theorem all_eq_false_of_mem {α : Type} {l : List α} {p : α → Bool} {x : α}
    (hx : x ∈ l) (hpx : p x = false) : l.all p = false := by
  induction l with
  | nil => cases hx
  | cons a rest ih =>
      rcases List.mem_cons.mp hx with h | h
      · subst h; simp [List.all_cons, hpx]
      · simp [List.all_cons, ih h]

theorem parseStringList_map_str (codes : List String) :
    parseStringList (codes.map .str) = some codes := by
  induction codes with
  | nil => rfl
  | cons c cs ih => simp [parseStringList, ih]

/-! # Claim C9: `reset()` and the `running` state -/

/-- A concrete case currently in status `running`. -/
def tcRunningC9 : TestCaseM :=
  { id := 0, name := "case", userInput := "run it", steps := [],
    status := .running }

/-- C9 counterexample: the claim says a `running` case is never
transitioned to `created` by `reset()`, but `TestCaseExecutor.reset` has
no status guard: resetting a running case yields status `created`. -/
theorem reset_running_transitions_to_created :
    tcRunningC9.status = .running ∧
      (resetCase tcRunningC9).1.status = .created ∧
      (resetCase tcRunningC9).1.steps = [] :=
  ⟨rfl, rfl, rfl⟩

/-- C9 amended: `reset()` unconditionally returns the case to `created`
with an empty step list — regardless of the current status, including
`running` — leaving every other field unchanged and emitting a single
`caseStatusChanged` event. -/
theorem reset_unconditional (tc : TestCaseM) :
    (resetCase tc).1 = { tc with status := .created, steps := [] } ∧
      (resetCase tc).2 = [EventM.caseStatusChanged .created] :=
  ⟨rfl, rfl⟩

/-! # Claim C2: the sequence length invariant -/

/-- Three valid actions. -/
def actsC2 : List Json :=
  [.obj [("type", .str "freezePageContext")],
   .obj [("type", .str "freezePageContext")],
   .obj [("type", .str "freezePageContext")]]

/-- Only two display-code strings. -/
def codesC2 : List String := ["code line 1", "code line 2"]

/-- A sequence with 3 actions and 2 code strings. -/
def seqC2 : Json :=
  .obj [("actions", .arr actsC2),
        ("display", .obj [("code", .arr (codesC2.map .str)),
                          ("description", .str "three steps")])]

/-- C2 counterexample: a sequence with 3 actions and 2 display-code
strings passes `ActionSequenceSchema` validation — the schema never
compares the two lengths, contradicting the claim that such a mismatch
is a validation failure. -/
theorem sequence_length_mismatch_accepted :
    isValidActionSequence seqC2 = true ∧
      actsC2.length = 3 ∧ codesC2.length = 2 :=
  ⟨by decide, rfl, rfl⟩

/-- C2 amended: `ActionSequenceSchema` validation of a well-formed
sequence object checks only that every action is valid, that
`display.code` is a list of strings and `display.description` a string;
it accepts the sequence for *any* pair of lengths — the outcome is
independent of whether `actions` and `display.code` have equal length. -/
theorem sequence_validation_ignores_lengths (actions : List Json)
    (codes : List String) (desc : String) :
    isValidActionSequence
        (.obj [("actions", .arr actions),
               ("display", .obj [("code", .arr (codes.map .str)),
                                 ("description", .str desc)])]) =
      actions.all isValidAIAction := by
  simp only [isValidActionSequence, zodParseActionSequence, assocFind,
    if_pos, if_neg, String.reduceEq, ite_true, ite_false, reduceIte]
  by_cases h : actions.all isValidAIAction
  · simp [h, parseStringList_map_str]
  · simp [h]

/-! # Claim C3: closed-shape validation -/

/-- An `aiTap` action carrying an extra field outside the tag's shape. -/
def tapExtraC3 : Json :=
  .obj [("type", .str "aiTap"), ("locate", .str "login button"),
        ("somethingUnexpected", .num 1)]

/-- C3 counterexample: the claim says acceptance implies the value
satisfies exactly one tag's *closed* shape, but the per-tag action
schemas are non-strict (`.extend(...Schema.shape)` drops the option
schemas' strictness): an `aiTap` with an extra field outside the aiTap
shape is accepted, the unknown key being silently stripped rather than
rejected. -/
theorem action_with_extra_field_accepted :
    isValidAIAction tapExtraC3 = true ∧
      jGet tapExtraC3 "somethingUnexpected" = some (.num 1) ∧
      "somethingUnexpected" ∉ (interactionFields "aiTap").map FieldSpec.name :=
  ⟨by decide, rfl, by decide⟩

/-- C3 amended: action validation rejects an unknown tag, a missing
required field (e.g. `aiTap` without `locate`) and a mistyped required
field, and the *standalone* option schemas (here `LocateOptionSchema`,
which is `.strict()`) reject unexpected extra fields; but extra fields on
an action object itself are stripped, not rejected (see the
counterexample), because strictness is lost when the option shapes are
flattened into the per-tag schemas. -/
theorem action_validation_rejects (kvs : List (String × Json)) (t : String)
    (k : String) (v : Json) (n : Int) :
    (assocFind kvs "type" = some (.str t) → t ∉ actionTypeTags →
        isValidAIAction (.obj kvs) = false) ∧
      (assocFind kvs "type" = some (.str "aiTap") →
        assocFind kvs "locate" = none → isValidAIAction (.obj kvs) = false) ∧
      (assocFind kvs "type" = some (.str "aiTap") →
        assocFind kvs "locate" = some (.num n) →
        isValidAIAction (.obj kvs) = false) ∧
      ((k, v) ∈ kvs → k ≠ "deepThink" → k ≠ "cacheable" →
        isValidLocateOption (.obj kvs) = false) := by
  refine ⟨?_, ?_, ?_, ?_⟩
  · intro h1 h2
    simp only [isValidAIAction, isValidAIActionKvs]
    rw [h1]
    simp only [assocFind_eq_none actionVariants t h2]
  · intro h1 h2
    simp only [isValidAIAction, isValidAIActionKvs]
    rw [h1]
    show checkObj ⟨false, interactionFields "aiTap"⟩ kvs = false
    have hmem : (⟨"locate", true, isString⟩ : FieldSpec) ∈
        interactionFields "aiTap" :=
      List.mem_append.mpr (Or.inl (List.mem_append.mpr (Or.inr (by simp))))
    have hfield : checkField kvs ⟨"locate", true, isString⟩ = false := by
      simp [checkField, h2]
    simp [checkObj, all_eq_false_of_mem hmem hfield]
  · intro h1 h2
    simp only [isValidAIAction, isValidAIActionKvs]
    rw [h1]
    show checkObj ⟨false, interactionFields "aiTap"⟩ kvs = false
    have hmem : (⟨"locate", true, isString⟩ : FieldSpec) ∈
        interactionFields "aiTap" :=
      List.mem_append.mpr (Or.inl (List.mem_append.mpr (Or.inr (by simp))))
    have hfield : checkField kvs ⟨"locate", true, isString⟩ = false := by
      simp [checkField, h2, jsIsUndef, isString]
    simp [checkObj, all_eq_false_of_mem hmem hfield]
  · intro hm h1 h2
    simp only [isValidLocateOption, checkObjJ]
    have hp : (decide (FieldSpec.name ⟨"deepThink", false, isBoolean⟩ = k) ||
        (decide (FieldSpec.name ⟨"cacheable", false, isBoolean⟩ = k) ||
          false)) = false := by
      simp
      exact ⟨fun e => h1 e.symm, fun e => h2 e.symm⟩
    have hall : kvs.all
        (fun kv => locateOptionSchema.fields.any fun f => f.name = kv.1) =
        false := by
      refine all_eq_false_of_mem hm ?_
      simpa [locateOptionSchema, List.any_cons, List.any_nil] using hp
    unfold checkObj
    rw [hall]
    simp [locateOptionSchema]

/-- C3 amended, witnessed at concrete inputs: an unknown tag `aiFly`, an
`aiTap` without `locate`, an `aiTap` with a numeric `locate`, and a
locate-options object with an extra `foo` field are all rejected. -/
theorem action_validation_rejects_witness :
    isValidAIAction (.obj [("type", .str "aiFly")]) = false ∧
      isValidAIAction (.obj [("type", .str "aiTap")]) = false ∧
      isValidAIAction
        (.obj [("type", .str "aiTap"), ("locate", .num 5)]) = false ∧
      isValidLocateOption
        (.obj [("deepThink", .bool true), ("foo", .num 1)]) = false :=
  ⟨(action_validation_rejects [("type", .str "aiFly")] "aiFly" "" .null 0).1
      rfl (by decide),
   (action_validation_rejects [("type", .str "aiTap")] "aiTap" "" .null 0).2.1
      rfl rfl,
   (action_validation_rejects [("type", .str "aiTap"), ("locate", .num 5)]
      "aiTap" "" .null 5).2.2.1 rfl rfl,
   (action_validation_rejects [("deepThink", .bool true), ("foo", .num 1)]
      "" "foo" (.num 1) 0).2.2.2 (by simp) (by decide) (by decide)⟩

/-! # Claim C5: options forwarded by the dispatcher -/

/-- An `aiAssert` step with no `timeoutMs` (or any other option field)
present. -/
def assertStepC5 : TestStepM :=
  { action := .obj [("type", .str "aiAssert"),
                    ("assertion", .str "dashboard is visible")]
    id := 0
    description := "AI assert: dashboard is visible"
    status := .pending }

/-- C5 counterexample: the claim says absent option fields are omitted
from the forwarded options and never defaulted inside the dispatcher, but
for an `aiAssert` step with no `timeoutMs` the dispatcher forwards an
options object containing `timeoutMs: 15000`
(`{ timeoutMs: step.timeoutMs || 15000, ...options }` in `executeStep`). -/
theorem assert_options_get_default_timeout :
    routeStep assertStepC5 =
        .backendCall "aiAssert" [.str "dashboard is visible", .undef]
          [("timeoutMs", .num 15000)] ∧
      stepGet assertStepC5 "timeoutMs" = none :=
  ⟨rfl, rfl⟩

theorem mem_addOpt (kvs acc : List (String × Json)) (n k : String) (v : Json) :
    ((k, v) ∈ addOpt kvs acc n) ↔
      ((k, v) ∈ acc ∨
        (k = n ∧ assocFind kvs n = some v ∧ jsIsUndef v = false)) := by
  unfold addOpt
  cases hn : assocFind kvs n with
  | none => simp
  | some w =>
      change ((k, v) ∈ if jsIsUndef w = true then acc else acc ++ [(n, w)]) ↔ _
      by_cases hw : jsIsUndef w = true
      · rw [if_pos hw]
        constructor
        · exact fun h => Or.inl h
        · rintro (h | ⟨_, hs, hu⟩)
          · exact h
          · injection hs with e; rw [e] at hw; rw [hw] at hu; cases hu
      · rw [if_neg hw]
        simp only [List.mem_append, List.mem_singleton, Prod.mk.injEq]
        constructor
        · rintro (h | ⟨hk, hv⟩)
          · exact Or.inl h
          · subst hv
            exact Or.inr ⟨hk, rfl, by simpa using hw⟩
        · rintro (h | ⟨hk, hs, _⟩)
          · exact Or.inl h
          · injection hs with e
            exact Or.inr ⟨hk, e.symm⟩

theorem mem_foldl_addOpt (kvs : List (String × Json)) (names : List String) :
    ∀ (acc : List (String × Json)) (k : String) (v : Json),
      ((k, v) ∈ names.foldl (addOpt kvs) acc) ↔
        ((k, v) ∈ acc ∨
          (k ∈ names ∧ assocFind kvs k = some v ∧ jsIsUndef v = false)) := by
  induction names with
  | nil => simp
  | cons n ns ih =>
      intro acc k v
      simp only [List.foldl_cons, ih, mem_addOpt, List.mem_cons]
      constructor
      · rintro ((h | ⟨rfl, hs, hu⟩) | ⟨hns, hP⟩)
        · exact Or.inl h
        · exact Or.inr ⟨Or.inl rfl, hs, hu⟩
        · exact Or.inr ⟨Or.inr hns, hP⟩
      · rintro (h | ⟨rfl | hns, hP⟩)
        · exact Or.inl (Or.inl h)
        · exact Or.inl (Or.inr ⟨rfl, hP⟩)
        · exact Or.inr ⟨hns, hP⟩

/-- C5 amended: `buildExecutionOptions` itself forwards *exactly* the
option fields present (and not `undefined`) on the step, with no
defaults: a pair is in the built options bag iff its key is one of the
ten copied option field names and the step carries exactly that value.
(The per-tag call sites in `executeStep` then merge tag-specific defaults
into this bag — `timeoutMs`/`checkIntervalMs` for assert/wait,
`autoDismissKeyboard` for input, `domIncluded`/`screenshotIncluded` for
the extraction family, `cacheable` for `aiAction` — which is what the
counterexample exhibits.) -/
theorem buildExecutionOptions_exact (s : TestStepM) (k : String) (v : Json) :
    ((k, v) ∈ buildExecutionOptions s) ↔
      (k ∈ executionOptionFields ∧ stepGet s k = some v ∧
        jsIsUndef v = false) := by
  unfold buildExecutionOptions stepGet jGet
  cases s.action with
  | obj kvs => simpa using mem_foldl_addOpt kvs executionOptionFields [] k v
  | null => simp [mem_foldl_addOpt [] executionOptionFields [], assocFind]
  | undef => simp [mem_foldl_addOpt [] executionOptionFields [], assocFind]
  | bool b => simp [mem_foldl_addOpt [] executionOptionFields [], assocFind]
  | num m => simp [mem_foldl_addOpt [] executionOptionFields [], assocFind]
  | str ss => simp [mem_foldl_addOpt [] executionOptionFields [], assocFind]
  | arr xs => simp [mem_foldl_addOpt [] executionOptionFields [], assocFind]

/-! # Claims C1 / C6 / C10: the execute() loop -/

theorem runStepsLoop_firstFail (dispatch : TestStepM → TestStepM) :
    ∀ (steps : List TestStepM) (t k : Nat) (sk : TestStepM),
      steps.get? k = some sk →
      (dispatch (markRunning sk (t + k))).status = .failed →
      (∀ i si, i < k → steps.get? i = some si →
        (dispatch (markRunning si (t + i))).status ≠ .failed) →
      (runStepsLoop dispatch t steps).dispatched = k + 1 ∧
        (runStepsLoop dispatch t steps).steps.get? k =
          some (dispatch (markRunning sk (t + k))) ∧
        ∀ j, k < j →
          (runStepsLoop dispatch t steps).steps.get? j = steps.get? j := by
  intro steps
  induction steps with
  | nil => intro t k sk hk; simp at hk
  | cons s rest ih =>
      intro t k sk hk hfail hprev
      cases k with
      | zero =>
          have hs : s = sk := by simpa using hk
          subst hs
          have hf : (dispatch (markRunning s t)).status = .failed := by
            simpa using hfail
          simp only [runStepsLoop]
          rw [if_pos hf]
          refine ⟨rfl, by simp, ?_⟩
          intro j hj
          cases j with
          | zero => omega
          | succ j' => simp
      | succ k' =>
          have hk' : rest.get? k' = some sk := by simpa using hk
          have h0 : ¬(dispatch (markRunning s t)).status = .failed := by
            have := hprev 0 s (Nat.succ_pos k') (by simp)
            simpa using this
          have htime : t + (k' + 1) = (t + 1) + k' := by omega
          have ihh := ih (t + 1) k' sk hk'
            (by rw [← htime]; exact hfail)
            (by
              intro i si hi hg
              have := hprev (i + 1) si (by omega) (by simpa using hg)
              have e : t + (i + 1) = (t + 1) + i := by omega
              rwa [e] at this)
          simp only [runStepsLoop]
          rw [if_neg h0]
          refine ⟨by simp [ihh.1], ?_, ?_⟩
          · show (runStepsLoop dispatch (t + 1) rest).steps.get? k' =
              some (dispatch (markRunning sk (t + (k' + 1))))
            rw [htime]
            exact ihh.2.1
          · intro j hj
            cases j with
            | zero => omega
            | succ j' =>
                show (runStepsLoop dispatch (t + 1) rest).steps.get? j' =
                  rest.get? j'
                exact ihh.2.2 j' (by omega)

/-- C1: the fail-fast rule of `execute()`.  If step `k` is the first step
whose dispatched result has status `failed` (every earlier dispatched
result is non-failed), then exactly `k + 1` steps are dispatched (so no
step after `k` is ever dispatched), every step with index `> k` is
returned exactly as it was before execution (status included), and the
final case status is `failed`. -/
theorem fail_fast (dispatch : TestStepM → TestStepM) (t0 : Nat)
    (tc : TestCaseM) (k : Nat) (sk : TestStepM)
    (hk : tc.steps.get? k = some sk)
    (hfail : (dispatch (markRunning sk (t0 + 1 + k))).status = .failed)
    (hprev : ∀ i si, i < k → tc.steps.get? i = some si →
      (dispatch (markRunning si (t0 + 1 + i))).status ≠ .failed) :
    (executeCase dispatch t0 tc).dispatched = k + 1 ∧
      (∀ j, k < j →
        (executeCase dispatch t0 tc).testCase.steps.get? j =
          tc.steps.get? j) ∧
      (executeCase dispatch t0 tc).testCase.status = .failed := by
  have hrun := runStepsLoop_firstFail dispatch tc.steps (t0 + 1) k sk hk
    hfail hprev
  have hallf : ((runStepsLoop dispatch (t0 + 1) tc.steps).steps.all
      fun s => s.status == .success) = false := by
    refine all_eq_false_of_mem (List.get?_mem hrun.2.1) ?_
    rw [hfail]
    rfl
  refine ⟨hrun.1, hrun.2.2, ?_⟩
  show (if ((runStepsLoop dispatch (t0 + 1) tc.steps).steps.all
      fun s => s.status == .success) = true then CaseStatus.completed
    else CaseStatus.failed) = CaseStatus.failed
  rw [hallf]
  rfl

/-- A concrete 3-step case for the fail-fast witness: the dispatcher
fails exactly the step with id 1. -/
def stepC1a : TestStepM :=
  { action := .obj [("type", .str "aiTap"), ("locate", .str "a")]
    id := 0, description := "AI tap: a", status := .pending }

def stepC1b : TestStepM :=
  { action := .obj [("type", .str "aiTap"), ("locate", .str "b")]
    id := 1, description := "AI tap: b", status := .pending }

def stepC1c : TestStepM :=
  { action := .obj [("type", .str "aiTap"), ("locate", .str "c")]
    id := 2, description := "AI tap: c", status := .pending }

def stepsC1 : List TestStepM := [stepC1a, stepC1b, stepC1c]

def tcC1 : TestCaseM :=
  { id := 0, name := "case", userInput := "three taps", steps := stepsC1,
    status := .created }

def dispatchC1 : TestStepM → TestStepM := fun s =>
  if s.id = 1 then { s with status := .failed, error := some "boom" }
  else { s with status := .success }

theorem fail_fast_witness :
    (executeCase dispatchC1 0 tcC1).dispatched = 2 ∧
      (executeCase dispatchC1 0 tcC1).testCase.steps.get? 2 =
        tcC1.steps.get? 2 ∧
      (executeCase dispatchC1 0 tcC1).testCase.status = .failed := by
  have h := fail_fast dispatchC1 0 tcC1 1 stepC1b rfl rfl
    (by
      intro i si hi hg
      have hi0 : i = 0 := by omega
      subst hi0
      have hsi : si = stepC1a := by
        have h0 := hg
        simp [tcC1, stepsC1] at h0
        exact h0.symm
      subst hsi
      decide)
  exact ⟨h.1, h.2.1 2 (by omega), h.2.2⟩

theorem runStepsLoop_all_take (dispatch : TestStepM → TestStepM) :
    ∀ (steps : List TestStepM) (t : Nat),
      ((runStepsLoop dispatch t steps).steps.all
          fun s => s.status == .success) =
        (((runStepsLoop dispatch t steps).steps.take
            (runStepsLoop dispatch t steps).dispatched).all
          fun s => s.status == .success) := by
  intro steps
  induction steps with
  | nil => intro t; rfl
  | cons s rest ih =>
      intro t
      simp only [runStepsLoop]
      by_cases hf : (dispatch (markRunning s t)).status = .failed
      · rw [if_pos hf]
        have hfb : ((dispatch (markRunning s t)).status ==
            StepStatus.success) = false := by rw [hf]; rfl
        simp only [List.all_cons, List.take_succ_cons, List.take_zero,
          List.all_nil, hfb, Bool.false_and, Bool.and_true]
      · rw [if_neg hf]
        simp only [List.all_cons, List.take_succ_cons, ih (t + 1)]

/-- C6: after `execute()` (whether it stopped early or ran to the end)
the case status is `completed` iff every actually-dispatched step (the
first `dispatched` entries of the returned list) ended with status
`success`, and the status is always either `completed` or `failed`.  The
step list and the dispatch function are arbitrary — in particular steps
whose status was `skipped` going in do not block a `completed` outcome,
since the outcome depends only on the dispatched results. -/
theorem completed_iff_dispatched_success (dispatch : TestStepM → TestStepM)
    (t0 : Nat) (tc : TestCaseM) :
    ((executeCase dispatch t0 tc).testCase.status = .completed ↔
        (((executeCase dispatch t0 tc).testCase.steps.take
            (executeCase dispatch t0 tc).dispatched).all
          fun s => s.status == .success) = true) ∧
      ((executeCase dispatch t0 tc).testCase.status = .completed ∨
        (executeCase dispatch t0 tc).testCase.status = .failed) := by
  have htake := runStepsLoop_all_take dispatch tc.steps (t0 + 1)
  by_cases hall : ((runStepsLoop dispatch (t0 + 1) tc.steps).steps.all
      fun s => s.status == .success) = true
  · constructor
    · constructor
      · intro _
        show (((runStepsLoop dispatch (t0 + 1) tc.steps).steps.take
            (runStepsLoop dispatch (t0 + 1) tc.steps).dispatched).all
          fun s => s.status == .success) = true
        rw [← htake]
        exact hall
      · intro _
        show (if ((runStepsLoop dispatch (t0 + 1) tc.steps).steps.all
            fun s => s.status == .success) = true then CaseStatus.completed
          else CaseStatus.failed) = CaseStatus.completed
        rw [hall]
        rfl
    · left
      show (if ((runStepsLoop dispatch (t0 + 1) tc.steps).steps.all
          fun s => s.status == .success) = true then CaseStatus.completed
        else CaseStatus.failed) = CaseStatus.completed
      rw [hall]
      rfl
  · have hst : (executeCase dispatch t0 tc).testCase.status =
        CaseStatus.failed := by
      show (if ((runStepsLoop dispatch (t0 + 1) tc.steps).steps.all
          fun s => s.status == .success) = true then CaseStatus.completed
        else CaseStatus.failed) = CaseStatus.failed
      rw [if_neg hall]
    constructor
    · rw [hst]
      constructor
      · intro h; cases h
      · intro h
        exfalso
        apply hall
        rw [htake]
        exact h
    · right; exact hst

/-- A case with an empty step list. -/
def tcEmptyC10 : TestCaseM :=
  { id := 0, name := "empty", userInput := "nothing", steps := [],
    status := .created }

/-- C10: when `execute()` is called on a case whose step list is empty it
returns normally with case status `completed` (the vacuous
`[].every(...)` is true), both start and end timestamps stamped, zero
steps dispatched and no step events emitted — only the two
`caseStatusChanged` events. -/
theorem execute_empty_steps (dispatch : TestStepM → TestStepM) (t0 : Nat)
    (tc : TestCaseM) (h : tc.steps = []) :
    (executeCase dispatch t0 tc).testCase.status = .completed ∧
      (executeCase dispatch t0 tc).testCase.startTime = some t0 ∧
      (executeCase dispatch t0 tc).testCase.endTime.isSome = true ∧
      (executeCase dispatch t0 tc).dispatched = 0 ∧
      ((executeCase dispatch t0 tc).events.all
          fun e => !e.isStepEvent) = true ∧
      (executeCase dispatch t0 tc).testCase.steps = [] := by
  simp [executeCase, h, runStepsLoop, EventM.isStepEvent]

theorem execute_empty_steps_witness :
    tcEmptyC10.steps = [] ∧
      (executeCase (fun s => s) 0 tcEmptyC10).testCase.status = .completed ∧
      (executeCase (fun s => s) 0 tcEmptyC10).dispatched = 0 :=
  ⟨rfl, (execute_empty_steps (fun s => s) 0 tcEmptyC10 rfl).1,
    (execute_empty_steps (fun s => s) 0 tcEmptyC10 rfl).2.2.2.1⟩

/-! # Claim C4: executeStep failure semantics and teardown -/

/-- C4: for every step, backend and prior agent state, `executeStep`
returns normally (never rethrows — the only throw outside the `try` is
unreachable), the agent state after return is the torn-down reset state
(so `isReady()` is `false` after every exit, success or failure), and
whenever the routed backend call throws, the returned step has status
`failed`, the error message derived from the exception, and a stamped
end time. -/
theorem executeStep_catches_and_tears_down (backend : Backend) (t : Nat)
    (s : TestStepM) (st : AgentState) :
    executeStep backend t s st =
        .ok (dispatchStep backend t (stampStartIfFalsy s t),
          agentResetState) ∧
      isReady agentResetState = false ∧
      (∀ m args opts e,
        routeStep (stampStartIfFalsy s t) = .backendCall m args opts →
        backend m args opts = .error e →
        (dispatchStep backend t (stampStartIfFalsy s t)).status = .failed ∧
          (dispatchStep backend t (stampStartIfFalsy s t)).error = some e ∧
          (dispatchStep backend t (stampStartIfFalsy s t)).endTime =
            some t) := by
  refine ⟨rfl, rfl, ?_⟩
  intro m args opts e hroute hback
  have hd : dispatchStep backend t (stampStartIfFalsy s t) =
      { stampStartIfFalsy s t with
        status := .failed, endTime := some t, error := some e } := by
    unfold dispatchStep
    rw [hroute]
    show (match backend m args opts with
      | .ok r =>
          { stampStartIfFalsy s t with
            status := .success, endTime := some t, result := some r }
      | .error e =>
          { stampStartIfFalsy s t with
            status := .failed, endTime := some t, error := some e }) = _
    rw [hback]
  rw [hd]
  exact ⟨rfl, rfl, rfl⟩

/-- An always-throwing backend. -/
def backendBoom : Backend := fun _ _ _ => .error "boom"

theorem executeStep_catches_and_tears_down_witness :
    routeStep (stampStartIfFalsy stepC1a 0) =
        .backendCall "aiTap" [.str "a"] [] ∧
      backendBoom "aiTap" [.str "a"] [] = .error "boom" ∧
      executeStep backendBoom 0 stepC1a createAgent =
        .ok (dispatchStep backendBoom 0 (stampStartIfFalsy stepC1a 0),
          agentResetState) ∧
      (dispatchStep backendBoom 0 (stampStartIfFalsy stepC1a 0)).status =
        .failed ∧
      (dispatchStep backendBoom 0 (stampStartIfFalsy stepC1a 0)).error =
        some "boom" ∧
      isReady agentResetState = false :=
  ⟨rfl, rfl,
    (executeStep_catches_and_tears_down backendBoom 0 stepC1a createAgent).1,
    ((executeStep_catches_and_tears_down backendBoom 0 stepC1a
        createAgent).2.2 "aiTap" [.str "a"] [] "boom" rfl rfl).1,
    ((executeStep_catches_and_tears_down backendBoom 0 stepC1a
        createAgent).2.2 "aiTap" [.str "a"] [] "boom" rfl rfl).2.1,
    (executeStep_catches_and_tears_down backendBoom 0 stepC1a
        createAgent).2.1⟩

/-! # Claim C7: parse() conversion and error handling -/

/-- C7: `parse()` fills the step list from the pre-supplied action
sequence when one is present, otherwise from the raw code string via the
Action Contract; when parsing/validation fails it sets the case's
top-level error, transitions the case to `failed`, re-raises the error,
and leaves the step list exactly as it was (no partial population); when
it succeeds it replaces the step list, raises nothing and leaves
status/error untouched; with neither input the step list becomes empty. -/
theorem parse_behaviour (json5 : String → Except String Json)
    (tc : TestCaseM) :
    (∀ seq, tc.actionSequence = some seq →
        (parseCase json5 false tc).1.steps = parseTestActionSequence seq ∧
          (parseCase json5 false tc).2.1 = none) ∧
      (∀ e,
        parseTestCodeOrActionSequence json5 tc.actionSequence tc.code =
            .error e →
        (parseCase json5 false tc).1.error = some e ∧
          (parseCase json5 false tc).1.status = .failed ∧
          (parseCase json5 false tc).1.steps = tc.steps ∧
          (parseCase json5 false tc).2.1 = some e) ∧
      (∀ steps,
        parseTestCodeOrActionSequence json5 tc.actionSequence tc.code =
            .ok steps →
        (parseCase json5 false tc).1.steps = steps ∧
          (parseCase json5 false tc).2.1 = none ∧
          (parseCase json5 false tc).1.status = tc.status ∧
          (parseCase json5 false tc).1.error = tc.error) ∧
      (tc.actionSequence = none → tc.code = none →
        (parseCase json5 false tc).1.steps = []) := by
  refine ⟨?_, ?_, ?_, ?_⟩
  · intro seq hseq
    have hok : parseTestCodeOrActionSequence json5 tc.actionSequence
        tc.code = .ok (parseTestActionSequence seq) := by
      rw [hseq]; rfl
    simp [parseCase, hok]
  · intro e he
    simp [parseCase, he]
  · intro steps hs
    simp [parseCase, hs]
  · intro h1 h2
    have hok : parseTestCodeOrActionSequence json5 tc.actionSequence
        tc.code = .ok [] := by
      rw [h1, h2]; rfl
    simp [parseCase, hok]

/-- A JSON5 parser that always throws. -/
def json5FailW : String → Except String Json := fun _ => .error "bad"

/-- A case with only a raw code string. -/
def tcCodeC7 : TestCaseM :=
  { id := 0, name := "from code", userInput := "do it", code := some "x",
    steps := [stepC1a], status := .created }

theorem parse_behaviour_witness :
    parseTestCodeOrActionSequence json5FailW tcCodeC7.actionSequence
        tcCodeC7.code = .error "Failed to parse test code: bad" ∧
      (parseCase json5FailW false tcCodeC7).1.error =
        some "Failed to parse test code: bad" ∧
      (parseCase json5FailW false tcCodeC7).1.status = .failed ∧
      (parseCase json5FailW false tcCodeC7).1.steps = tcCodeC7.steps ∧
      (parseCase json5FailW false tcCodeC7).2.1 =
        some "Failed to parse test code: bad" :=
  ⟨rfl,
    ((parse_behaviour json5FailW tcCodeC7).2.1
        "Failed to parse test code: bad" rfl).1,
    ((parse_behaviour json5FailW tcCodeC7).2.1
        "Failed to parse test code: bad" rfl).2.1,
    ((parse_behaviour json5FailW tcCodeC7).2.1
        "Failed to parse test code: bad" rfl).2.2.1,
    ((parse_behaviour json5FailW tcCodeC7).2.1
        "Failed to parse test code: bad" rfl).2.2.2⟩

/-! # Claim C8: getTestCase snapshots -/

/-- The orchestrator-owned case object: scalar fields plus the address
of its steps array. -/
def caseObjC8 : CaseObj :=
  { status := .created, error := none, name := "case", stepsAddr := 0 }

/-- The orchestrator's store: one owned case object at address 0 whose
steps array (address 0) holds one pending step. -/
def memC8 : Mem :=
  { cases := [caseObjC8], stepArrays := [[stepC1a]] }

/-- The snapshot returned by `getTestCase()` on the orchestrator owning
address 0 (the fresh case object lands at address 1). -/
def snapC8 : Nat × Mem := (getTestCaseAt memC8 0).getD (0, memC8)

/-- The store after a caller mutates the snapshot's steps:
`snapshot.steps[0].status = 'skipped'`. -/
def memC8mutated : Mem := setStepStatusVia snapC8.2 snapC8.1 0 .skipped

/-- C8 counterexample: the claim says no mutation of a returned snapshot
(including its steps) can change the orchestrator-owned case state, but
`getTestCase()` is only a shallow copy (`{ ...this.testCase }`): the
snapshot shares the steps array, so writing a step status through the
snapshot changes what the orchestrator-owned case (address 0) sees. -/
theorem snapshot_steps_alias_orchestrator :
    (caseSteps memC8 0).map (List.map TestStepM.status) =
        some [.pending] ∧
      snapC8.1 ≠ 0 ∧
      (caseSteps memC8mutated 0).map (List.map TestStepM.status) =
        some [.skipped] :=
  ⟨rfl, by decide, rfl⟩

/-- C8 amended: `getTestCase()` is a *shallow* defensive copy.  Two
consecutive calls with no intervening mutation return structurally equal
(`= some c` both times, steps address included) but non-identical (fresh
address each time, distinct from each other and from the orchestrator's)
objects, and mutating a snapshot's own top-level field leaves the
orchestrator-owned object unchanged; but the steps array is shared
(`stepsAddr` is copied by reference), so mutations through
`snapshot.steps` do reach orchestrator state (see counterexample). -/
theorem getTestCase_shallow_copy (m : Mem) (self : Nat) (c : CaseObj)
    (st : CaseStatus) (h : readCase m self = some c) :
    getTestCaseAt m self = some (allocCase m c) ∧
      (allocCase m c).1 ≠ self ∧
      readCase (allocCase m c).2 (allocCase m c).1 = some c ∧
      readCase (allocCase m c).2 self = some c ∧
      getTestCaseAt (allocCase m c).2 self =
        some (allocCase (allocCase m c).2 c) ∧
      (allocCase (allocCase m c).2 c).1 ≠ (allocCase m c).1 ∧
      readCase (allocCase (allocCase m c).2 c).2
        (allocCase (allocCase m c).2 c).1 = some c ∧
      readCase (setCaseStatusVia (allocCase m c).2 (allocCase m c).1 st)
        self = some c := by
  have hlt : self < m.cases.length := by
    by_contra hge
    rw [readCase, List.get?_len_le (Nat.le_of_not_lt hge)] at h
    cases h
  refine ⟨?_, ?_, ?_, ?_, ?_, ?_, ?_, ?_⟩
  · unfold getTestCaseAt
    rw [h]
    rfl
  · show m.cases.length ≠ self
    omega
  · show (m.cases ++ [c]).get? m.cases.length = some c
    exact List.get?_concat_length m.cases c
  · show (m.cases ++ [c]).get? self = some c
    rw [List.get?_append hlt]
    exact h
  · unfold getTestCaseAt
    have h2 : readCase (allocCase m c).2 self = some c := by
      show (m.cases ++ [c]).get? self = some c
      rw [List.get?_append hlt]
      exact h
    rw [h2]
    rfl
  · show (m.cases ++ [c]).length ≠ m.cases.length
    simp
  · show ((m.cases ++ [c]) ++ [c]).get? (m.cases ++ [c]).length = some c
    exact List.get?_concat_length (m.cases ++ [c]) c
  · show (listModify (m.cases ++ [c]) m.cases.length
        fun c0 => { c0 with status := st }).get? self = some c
    unfold listModify
    cases hl : (m.cases ++ [c]).get? m.cases.length with
    | none => rw [List.get?_append hlt]; exact h
    | some c0 =>
        rw [List.get?_set_ne _ _ (by omega : m.cases.length ≠ self)]
        rw [List.get?_append hlt]
        exact h

theorem getTestCase_shallow_copy_witness :
    readCase memC8 0 = some caseObjC8 ∧
      getTestCaseAt memC8 0 = some (allocCase memC8 caseObjC8) ∧
      (allocCase memC8 caseObjC8).1 ≠ 0 ∧
      readCase (allocCase memC8 caseObjC8).2 (allocCase memC8 caseObjC8).1 =
        some caseObjC8 ∧
      readCase (setCaseStatusVia (allocCase memC8 caseObjC8).2
        (allocCase memC8 caseObjC8).1 .stopped) 0 = some caseObjC8 :=
  ⟨rfl,
    (getTestCase_shallow_copy memC8 0 caseObjC8 .stopped rfl).1,
    (getTestCase_shallow_copy memC8 0 caseObjC8 .stopped rfl).2.1,
    (getTestCase_shallow_copy memC8 0 caseObjC8 .stopped rfl).2.2.1,
    (getTestCase_shallow_copy memC8 0 caseObjC8 .stopped rfl).2.2.2.2.2.2.2⟩

end Snow
